import Mathlib

/-!
Verification of the streaming chat session engine of `rayni-takehome`.

The engine's authoritative implementation is the express server embedded in
`src/rayni-ui/src/FileUpload.tsx` (the in-memory `db`, the `/api/chats`,
`/api/reactions`, `/api/comments`, `/api/chat` and `/api/chat/stream`
routes) together with the client logic in `src/rayni-ui/src/Chat.tsx`
(`pickPrimaryDocId`, `startStream`, the `chunk`/`done` listeners, `onSend`).

JavaScript runtime values that the code draws from the environment
(`uuid()`, `Date.now()`, `crypto.randomUUID()`) are modelled as explicit
parameters.  JavaScript string helpers (`split`/`join`, `includes`,
`trim`, regex suffix test) are modelled by structural functions on
character lists so that every definition evaluates inside the kernel.
-/

deriving instance DecidableEq for Except

namespace Rayni

/-! ## String helpers modelling the JavaScript primitives used by the code -/

/-- Model of `Array.prototype.join(sep)` (and of template interpolation of a
word list): `joinSep sep [a, b, c] = a ++ sep ++ b ++ sep ++ c`. -/
def joinSep (sep : String) : List String → String
  | [] => ""
  | [a] => a
  | a :: b :: rest => a ++ sep ++ joinSep sep (b :: rest)

/-- Helper for `strContains`: does `pat` occur contiguously in the list? -/
def listContains (pat : List Char) : List Char → Bool
  | [] => pat.isPrefixOf ([] : List Char)
  | c :: cs => pat.isPrefixOf (c :: cs) || listContains pat cs

/-- Model of `String.prototype.includes(pat)`. -/
def strContains (s pat : String) : Bool := listContains pat.data s.data

/-- Model of the regex test `/\.pdf$/i.test(name)` from `Chat.tsx`:
case-insensitive check that the name ends in `.pdf`. -/
def endsWithPdfCI (name : String) : Bool :=
  List.isSuffixOf ".pdf".data (name.data.map Char.toLower)

/-- Model of `String.prototype.trim()`. -/
def jsTrim (s : String) : String :=
  String.mk (((s.data.dropWhile Char.isWhitespace).reverse.dropWhile
    Char.isWhitespace).reverse)

/-! ## Data model (the shapes stored in the server's in-memory `db` and the
client's message list) -/

structure Reactions where
  up : Nat
  down : Nat
deriving DecidableEq

structure Comment where
  id : String
  text : String
  createdAt : Nat
deriving DecidableEq

structure Citation where
  label : String
  docId : String
  page : Option Nat
deriving DecidableEq

/-- A message as stored by the server.  Fields that a given message object
never received in the JavaScript source are `none`. -/
structure Message where
  id : String
  role : String
  content : String
  createdAt : Nat
  citations : Option (List Citation) := none
  reactions : Option Reactions := none
  comments : Option (List Comment) := none
deriving DecidableEq

structure ChatSession where
  id : String
  title : String
  messages : List Message
deriving DecidableEq

/-- A document in the server's `db.docs` seed. -/
structure ServerDoc where
  id : String
  name : String
  source : String
  mimeType : String
  status : String
  previewUrl : Option String
  pages : Option Nat
deriving DecidableEq

/-- The mutable part of the server's in-memory `db` that the chat engine
routes read and write (`projects` and `instruments` are only served
verbatim and never touched by any engine operation). -/
structure Db where
  chats : List ChatSession
  docs : List ServerDoc
deriving DecidableEq

/-- The error responses the engine routes can produce (404 JSON bodies
`"Chat not found"`, `"Message not found"`, `"Not found"`). -/
inductive ApiError where
  | chatNotFound
  | messageNotFound
  | docNotFound
deriving DecidableEq

/-- In-place mutation of the first list element found by
`Array.prototype.find`: JavaScript mutates that single object, so only the
first match is rewritten. -/
def updateFirst (p : α → Bool) (f : α → α) : List α → List α
  | [] => []
  | a :: as => if p a then f a :: as else a :: updateFirst p f as

/-! ## Server seed data (`db` literal in `FileUpload.tsx`) -/

/-- The `db.docs` seed. -/
def seedDocs : List ServerDoc :=
  [ { id := "d1", name := "Orbitrap Exploris MX Software Manual.pdf",
      source := "local", mimeType := "application/pdf", status := "indexed",
      previewUrl := some "/docs/orbitrap-exploris-mx.pdf", pages := some 120 },
    { id := "d2", name := "HPLC_Quick_Start.pdf",
      source := "local", mimeType := "application/pdf", status := "indexed",
      previewUrl := some "/docs/hplc-quick-start.pdf", pages := some 24 },
    { id := "d3", name := "LCMS_Troubleshooting.docx",
      source := "local",
      mimeType := "application/vnd.openxmlformats-officedocument.wordprocessingml.document",
      status := "uploaded", previewUrl := none, pages := none },
    { id := "d4", name := "Instrument_Safety.pptx",
      source := "local",
      mimeType := "application/vnd.openxmlformats-officedocument.presentationml.presentation",
      status := "queued", previewUrl := none, pages := none },
    { id := "d5", name := "notes.txt",
      source := "local", mimeType := "text/plain", status := "indexed",
      previewUrl := some "/docs/notes.txt", pages := none } ]

/-- The `db.chats` seed; `now` stands for `Date.now()` at server start, the
seed uses `Date.now() - 86400000`. -/
def seedChats (now : Nat) : List ChatSession :=
  [ { id := "c1", title := "HPLC: Low signal troubleshooting",
      messages :=
        [ { id := "m1", role := "user",
            content := "Why is HPLC signal low after maintenance?",
            createdAt := now - 86400000 },
          { id := "m2", role := "assistant",
            content := "Try: 1) Verify pump seals and leaks. 2) Check mobile phase composition and degas. 3) Re-calibrate detector.",
            createdAt := now - 86400000,
            citations := some [⟨"[1]", "d2", some 5⟩, ⟨"[2]", "d1", some 42⟩],
            reactions := some ⟨2, 0⟩,
            comments := some [] } ] },
    { id := "c2", title := "LC-MS: Tuning & calibration basics", messages := [] } ]

/-- The whole seeded `db`. -/
def dbInit (now : Nat) : Db := { chats := seedChats now, docs := seedDocs }

/-! ## Server operations -/

/-- Counter update of `POST /api/reactions`: two independent `if`s on the
request's `type` string. -/
def bumpReactions (r : Reactions) (ty : String) : Reactions :=
  { up := if ty == "up" then r.up + 1 else r.up,
    down := if ty == "down" then r.down + 1 else r.down }

/-- The shared write pattern of the two feedback routes: JavaScript mutates
the message object `find` returned, i.e. rewrites the first matching
message of the first matching chat. -/
def updateMsgDb (db : Db) (chatId messageId : String) (f : Message → Message) :
    Db :=
  { db with
    chats := updateFirst (fun c => c.id == chatId)
      (fun c => { c with
        messages := updateFirst (fun m => m.id == messageId) f c.messages })
      db.chats }

/-- Route `POST /api/reactions`: find chat, find message, lazily initialise
`reactions` to `(0,0)` (`msg.reactions ||= {up:0,down:0}`), bump the
counter named by `ty`, respond with the updated pair. -/
def react (db : Db) (chatId messageId ty : String) :
    Except ApiError (Reactions × Db) :=
  match db.chats.find? (fun c => c.id == chatId) with
  | none => .error .chatNotFound
  | some chat =>
    match chat.messages.find? (fun m => m.id == messageId) with
    | none => .error .messageNotFound
    | some msg =>
      let r := bumpReactions (msg.reactions.getD ⟨0, 0⟩) ty
      .ok (r, updateMsgDb db chatId messageId
        (fun m => { m with reactions := some r }))

/-- Route `POST /api/comments`: find chat, find message, lazily initialise
`comments` (`msg.comments ||= []`), push `{id: uuid(), text, createdAt:
Date.now()}` (`freshId` and `now` model those two runtime values), respond
with the updated list.  No validation of `text` is performed. -/
def comment (db : Db) (chatId messageId text freshId : String) (now : Nat) :
    Except ApiError (List Comment × Db) :=
  match db.chats.find? (fun c => c.id == chatId) with
  | none => .error .chatNotFound
  | some chat =>
    match chat.messages.find? (fun m => m.id == messageId) with
    | none => .error .messageNotFound
    | some msg =>
      let cs := msg.comments.getD [] ++ [⟨freshId, text, now⟩]
      .ok (cs, updateMsgDb db chatId messageId
        (fun m => { m with comments := some cs }))

/-- One summary row of `GET /api/chats`. -/
structure ChatSummary where
  id : String
  title : String
  messageCount : Nat
  lastUpdated : Option Nat
deriving DecidableEq

/-- The summary `GET /api/chats` builds for one chat: `lastUpdated` is
`messages[messages.length - 1].createdAt` when the list is non-empty,
`null` otherwise. -/
def summarize (c : ChatSession) : ChatSummary :=
  { id := c.id, title := c.title, messageCount := c.messages.length,
    lastUpdated :=
      if c.messages.length > 0 then
        (c.messages[c.messages.length - 1]?).map (fun m => m.createdAt)
      else none }

/-- Route `GET /api/chats`: `db.chats.map(summarize)` — summaries in the array
order of `db.chats`. -/
def listSessions (db : Db) : List ChatSummary := db.chats.map summarize

/-- Route `POST /api/chats`: push `{id: uuid(), title: title || "New Chat",
messages: []}` onto `db.chats` (`freshId` models `uuid()`; `none` models an
absent body field, and the empty string is falsy). -/
def postChat (db : Db) (title : Option String) (freshId : String) :
    ChatSession × Db :=
  let t := match title with
    | some s => if s == "" then "New Chat" else s
    | none => "New Chat"
  let c : ChatSession := { id := freshId, title := t, messages := [] }
  (c, { db with chats := db.chats ++ [c] })

/-- Models `chat.messages.push(...)` on a found chat object: append `ms` to its
message list. -/
def pushIntoChat (ms : List Message) (c : ChatSession) : ChatSession :=
  { c with messages := c.messages ++ ms }

/-- The lookup-or-create-then-push pattern shared by `POST /api/chat` and
`GET /api/chat/stream`: find the chat with id `findId` and push `ms` onto
its message list, or else push a fresh chat `{id: createId, title:
"Untitled Chat", messages: ms}` onto `db.chats`. -/
def findOrCreatePush (db : Db) (findId createId : String) (ms : List Message) :
    Db :=
  match db.chats.find? (fun c => c.id == findId) with
  | some _ => { db with
      chats := updateFirst (fun c => c.id == findId) (pushIntoChat ms)
        db.chats }
  | none => { db with
      chats := db.chats ++ [{ id := createId, title := "Untitled Chat",
                              messages := ms }] }

/-- Models `String(primaryDocId || db.docs[0]?.id || "d1")`: JavaScript `||`
falls through on the empty string and on a missing first doc. -/
def targetDocId (db : Db) (primaryDocId : String) : String :=
  if primaryDocId != "" then primaryDocId
  else match db.docs with
    | [] => "d1"
    | d :: _ => if d.id != "" then d.id else "d1"

/-- The two citations both `POST /api/chat` and `GET /api/chat/stream`
attach: labels `[1]`/`[2]`, docId `t`, pages 2 and 5. -/
def mkCitations (t : String) : List Citation :=
  [⟨"[1]", t, some 2⟩, ⟨"[2]", t, some 5⟩]

/-- The hard-coded answer text of `GET /api/chat/stream`. -/
def streamFullText : String :=
  "Checking pump seals and lines can fix low HPLC signal. Also verify mobile phase mixing and recalibrate the detector."

/-- The word list `full.split(" ")` of `streamFullText` (split on a single
space keeps every word; rejoining with a space gives back the text —
certified by `streamFullWords_join` below). -/
def streamFullWords : List String :=
  ["Checking", "pump", "seals", "and", "lines", "can", "fix", "low", "HPLC",
   "signal.", "Also", "verify", "mobile", "phase", "mixing", "and",
   "recalibrate", "the", "detector."]

/-- The `i`-th SSE chunk delta: `words[idx++] + (idx < words.length ? " " :
"")` — the word followed by a space except for the last word. -/
def serverChunk (words : List String) (i : Nat) : String :=
  words.getD i "" ++ (if i + 1 < words.length then " " else "")

/-- All chunk deltas the interval emits, in emission order. -/
def serverChunks (words : List String) : List String :=
  (List.range words.length).map (serverChunk words)

/-- Everything one completed run of `GET /api/chat/stream` produces: the
`chunk` event deltas in order, the `done` event's message, and the updated
`db`. -/
structure StreamResult where
  deltas : List String
  doneMsg : Message
  db : Db
deriving DecidableEq

/-- Route `GET /api/chat/stream`, run to completion.  `words` is the split word
list of the answer text (`streamFullWords` in the deployed code); `uid`,
`aid` model the two `uuid()` calls, `now`, `now2` the two `Date.now()`
calls.  The route looks the chat up by `chatId` (creating `{id: chatId,
title: "Untitled Chat"}` if absent), pushes the user message, emits the
chunks, then pushes and sends the assistant message whose content is
`` `${full} ${citations.map(c => c.label).join(" ")}` ``. -/
def streamRun (db : Db) (chatId message primaryDocId : String)
    (words : List String) (uid aid : String) (now now2 : Nat) : StreamResult :=
  let userMsg : Message :=
    { id := uid, role := "user", content := message, createdAt := now }
  let t := targetDocId db primaryDocId
  let citations := mkCitations t
  let full := joinSep " " words
  let assistantMsg : Message :=
    { id := aid, role := "assistant",
      content := full ++ " " ++ joinSep " " (citations.map (fun c => c.label)),
      createdAt := now2, citations := some citations }
  { deltas := serverChunks words,
    doneMsg := assistantMsg,
    db := findOrCreatePush db chatId chatId [userMsg, assistantMsg] }

/-- Route `POST /api/chat` (the non-streaming mock): lookup-or-create (the created
chat gets `chatId || uuid()` as id), push the user message, push an
assistant message whose text interpolates the two citation labels. -/
def postChatMsg (db : Db) (chatId message primaryDocId freshCid uid aid : String)
    (now now2 : Nat) : Message × Db :=
  let t := targetDocId db primaryDocId
  let citations := mkCitations t
  let replyText := "Try checking the pump seals " ++ "[1]" ++
    " and recalibrate the detector " ++ "[2]" ++ "."
  let userMsg : Message :=
    { id := uid, role := "user", content := message, createdAt := now }
  let assistantMsg : Message :=
    { id := aid, role := "assistant", content := replyText,
      createdAt := now2, citations := some citations }
  (assistantMsg,
   findOrCreatePush db chatId (if chatId == "" then freshCid else chatId)
     [userMsg, assistantMsg])

/-- Helper `advanceDocStatus` from the server helpers. -/
def advanceDocStatus (d : ServerDoc) : ServerDoc :=
  if d.status == "queued" then { d with status := "uploaded" }
  else if d.status == "uploaded" then { d with status := "indexed" }
  else d

/-- Route `POST /api/docs/:id/index`. -/
def indexDoc (db : Db) (docId : String) : Except ApiError (ServerDoc × Db) :=
  match db.docs.find? (fun d => d.id == docId) with
  | none => .error .docNotFound
  | some d =>
    .ok (advanceDocStatus d,
      { db with docs := updateFirst (fun x => x.id == docId) advanceDocStatus
                  db.docs })

/-- Every state-mutating operation the server exposes on its `db`. -/
inductive ServerOp where
  | reactOp (chatId messageId ty : String)
  | commentOp (chatId messageId text freshId : String) (now : Nat)
  | postChatOp (title : Option String) (freshId : String)
  | chatOp (chatId message primaryDocId freshCid uid aid : String)
      (now now2 : Nat)
  | streamOp (chatId message primaryDocId : String) (words : List String)
      (uid aid : String) (now now2 : Nat)
  | indexDocOp (docId : String)

/-- The `db` after one server operation (error responses leave `db`
untouched). -/
def applyOp (db : Db) : ServerOp → Db
  | .reactOp c m t =>
    match react db c m t with | .ok (_, db') => db' | .error _ => db
  | .commentOp c m tx f n =>
    match comment db c m tx f n with | .ok (_, db') => db' | .error _ => db
  | .postChatOp t f => (postChat db t f).2
  | .chatOp c m p fc u a n n2 => (postChatMsg db c m p fc u a n n2).2
  | .streamOp c m p w u a n n2 => (streamRun db c m p w u a n n2).db
  | .indexDocOp d =>
    match indexDoc db d with | .ok (_, db') => db' | .error _ => db

/-- The `find?`-chain every feedback route performs, on a chat list. -/
def findMsgIn (chats : List ChatSession) (chatId messageId : String) :
    Option Message :=
  (chats.find? (fun c => c.id == chatId)).bind
    (fun c => c.messages.find? (fun m => m.id == messageId))

/-- The message a `(chatId, messageId)` pair denotes in the `db`. -/
def findMsg (db : Db) (chatId messageId : String) : Option Message :=
  findMsgIn db.chats chatId messageId

/-- The reaction counters of a message as any observer reads them (missing
chat, message or `reactions` field reads as `(0,0)`, the lazy initial
value). -/
def viewReactions (db : Db) (chatId messageId : String) : Reactions :=
  ((findMsg db chatId messageId).bind (fun m => m.reactions)).getD ⟨0, 0⟩

/-- The comment list of a message as any observer reads it (missing pieces
read as the lazy initial `[]`). -/
def viewComments (db : Db) (chatId messageId : String) : List Comment :=
  ((findMsg db chatId messageId).bind (fun m => m.comments)).getD []

/-! ## Client (`Chat.tsx`) -/

/-- A document as the client's `docs` prop carries it. -/
structure ClientDoc where
  id : String
  name : String
  mimeType : Option String := none
deriving DecidableEq

/-- A message in the client's `messages` state. -/
structure ClientMessage where
  id : String
  role : String
  content : String
  citations : Option (List Citation) := none
  reactions : Option Reactions := none
  comments : Option (List Comment) := none
deriving DecidableEq

/-- The component state of `Chat.tsx` that the streaming logic touches. -/
structure ClientState where
  messages : List ClientMessage
  input : String
  isStreaming : Bool
  streamBuffer : String
deriving DecidableEq

/-- Predicate `d.mimeType && d.mimeType.includes("pdf")`: an absent or empty
`mimeType` is falsy. -/
def hasPdfMime (d : ClientDoc) : Bool :=
  match d.mimeType with
  | some mt => mt != "" && strContains mt "pdf"
  | none => false

/-- The predicate of the `docs.find` inside `pickPrimaryDocId`. -/
def isPdfDoc (d : ClientDoc) : Bool := hasPdfMime d || endsWithPdfCI d.name

/-- Function `pickPrimaryDocId` from `Chat.tsx`: the first PDF-like document's id,
else the first document's id, else `""` (each step falling through on a
falsy, i.e. empty, id). -/
def pickPrimaryDocId (docs : List ClientDoc) : String :=
  let pdfId := match docs.find? isPdfDoc with
    | some d => d.id
    | none => ""
  if pdfId != "" then pdfId
  else match docs with
    | [] => ""
    | d :: _ => d.id

/-- Function `startStream(prompt)` up to the subscription: append the user message,
append the empty assistant placeholder, set `isStreaming`, clear the
stream buffer (`uid`, `pid` model the two `crypto.randomUUID()` calls). -/
def startStream (s : ClientState) (prompt uid pid : String) : ClientState :=
  let userMsg : ClientMessage := { id := uid, role := "user", content := prompt }
  let placeholder : ClientMessage :=
    { id := pid, role := "assistant", content := "" }
  { s with messages := s.messages ++ [userMsg, placeholder],
           isStreaming := true, streamBuffer := "" }

/-- The `chunk` event listener: append the delta to the stream buffer and
rewrite every message whose id is the placeholder's to carry the whole
buffer as its content.  No sequence number exists and no check is made. -/
def applyChunk (pid : String) (s : ClientState) (delta : String) : ClientState :=
  let buf := s.streamBuffer ++ delta
  { s with streamBuffer := buf,
           messages := s.messages.map
             (fun m => if m.id == pid then { m with content := buf } else m) }

/-- Consuming a list of delivered `chunk` deltas in delivery order. -/
def consumeChunks (pid : String) (s : ClientState) (deltas : List String) :
    ClientState :=
  deltas.foldl (applyChunk pid) s

/-- The `done` event listener: replace the placeholder with the server's
final message and clear `isStreaming`. -/
def doneEvent (s : ClientState) (pid : String) (msg : ClientMessage) :
    ClientState :=
  { s with messages := s.messages.map
             (fun m => if m.id == pid then msg else m),
           isStreaming := false }

/-- Handler `onSend`: trim the input; if it is empty or a stream is active, return
with no effect and no error; otherwise start a stream with the trimmed
prompt and clear the input box. -/
def onSend (s : ClientState) (uid pid : String) : ClientState :=
  let val := jsTrim s.input
  if val == "" || s.isStreaming then s
  else { startStream s val uid pid with input := "" }

/-- The guard in `submitComment`: the draft is sent only when its trimmed
text is non-empty; otherwise the handler returns silently. -/
def submitCommentGuard (draft : String) : Bool := jsTrim draft != ""

/-- The content of the message with id `pid` as rendered by the client
(empty if absent). -/
def contentOf (s : ClientState) (pid : String) : String :=
  ((s.messages.find? (fun m => m.id == pid)).map (fun m => m.content)).getD ""

/-! ## Helper lemmas -/

theorem join_cons_aux (l : List String) :
    ∀ s : String, l.foldl (fun r t => r ++ t) s =
      s ++ l.foldl (fun r t => r ++ t) "" := by
  induction l with
  | nil => intro s; simp [List.foldl]
  | cons b bs ih =>
    intro s
    simp only [List.foldl]
    rw [ih (s ++ b), ih ("" ++ b), String.empty_append, String.append_assoc]

theorem join_cons (a : String) (l : List String) :
    String.join (a :: l) = a ++ String.join l := by
  show (a :: l).foldl (fun r t => r ++ t) "" = a ++ l.foldl (fun r t => r ++ t) ""
  simp only [List.foldl]
  rw [join_cons_aux l ("" ++ a), String.empty_append]

/-- When `f` does not disturb the predicate `p`, rewriting the first
`p`-match rewrites exactly what `find? p` returns. -/
theorem updateFirst_find?_self (p : α → Bool) (f : α → α) (l : List α)
    (hp : ∀ a, p (f a) = p a) :
    (updateFirst p f l).find? p = (l.find? p).map f := by
  induction l with
  | nil => rfl
  | cons a as ih =>
    by_cases h : p a
    · rw [updateFirst, if_pos h, List.find?_cons_of_pos _ ((hp a).trans h),
        List.find?_cons_of_pos _ h, Option.map_some']
    · rw [updateFirst, if_neg h,
        List.find?_cons_of_neg _ (by simpa using h),
        List.find?_cons_of_neg _ (by simpa using h), ih]

/-- What `find? q` sees after the first `p`-match was rewritten by an
id-preserving `f`: either nothing changed, or the first `q`-match and the
first `p`-match were the same element, and exactly that one now carries
`f`. -/
theorem updateFirst_find?_other (p q : α → Bool) (f : α → α) (l : List α)
    (hq : ∀ a, q (f a) = q a) :
    (updateFirst p f l).find? q = l.find? q ∨
      ∃ a, l.find? q = some a ∧ l.find? p = some a ∧
        (updateFirst p f l).find? q = some (f a) := by
  induction l with
  | nil => left; rfl
  | cons a as ih =>
    by_cases hpa : p a
    · by_cases hqa : q a
      · right
        exact ⟨a, List.find?_cons_of_pos _ hqa, List.find?_cons_of_pos _ hpa,
          by rw [updateFirst, if_pos hpa,
            List.find?_cons_of_pos _ ((hq a).trans hqa)]⟩
      · left
        have hfa : ¬ q (f a) = true := by rw [hq a]; exact hqa
        rw [updateFirst, if_pos hpa, List.find?_cons_of_neg _ hfa,
          List.find?_cons_of_neg _ hqa]
    · by_cases hqa : q a
      · left
        rw [updateFirst, if_neg hpa, List.find?_cons_of_pos _ hqa,
          List.find?_cons_of_pos _ hqa]
      · rcases ih with h | ⟨b, h1, h2, h3⟩
        · left
          rw [updateFirst, if_neg hpa, List.find?_cons_of_neg _ hqa,
            List.find?_cons_of_neg _ hqa, h]
        · right
          exact ⟨b,
            by rw [List.find?_cons_of_neg _ hqa, h1],
            by rw [List.find?_cons_of_neg _ hpa, h2],
            by rw [updateFirst, if_neg hpa,
              List.find?_cons_of_neg _ hqa, h3]⟩

/-- Pushing a new chat at the end of the list: what a `(cid, mid)` lookup
then sees. -/
theorem findMsgIn_append_one (chats : List ChatSession) (c : ChatSession)
    (cid mid : String) :
    findMsgIn (chats ++ [c]) cid mid =
      if chats.find? (fun x => x.id == cid) = none ∧ (c.id == cid) = true
      then c.messages.find? (fun m => m.id == mid)
      else findMsgIn chats cid mid := by
  simp only [findMsgIn, List.find?_append]
  cases hc : chats.find? (fun x => x.id == cid) with
  | some x => simp
  | none =>
    by_cases hcc : (c.id == cid) = true
    · rw [@List.find?_cons_of_pos _ (fun x => x.id == cid) c [] hcc]
      simp [hcc]
    · rw [@List.find?_cons_of_neg _ (fun x => x.id == cid) c [] hcc]
      simp [hcc]

/-- What any `(cid, mid)` lookup sees after a feedback write to
`(cid0, mid0)` through an id-preserving message rewrite `f`: either its
answer is untouched, or it denotes exactly the written message. -/
theorem findMsg_updateMsgDb (db : Db) (cid0 mid0 cid mid : String)
    (f : Message → Message) (hid : ∀ m, (f m).id = m.id) :
    findMsg (updateMsgDb db cid0 mid0 f) cid mid = findMsg db cid mid ∨
      ∃ m, findMsg db cid mid = some m ∧ findMsg db cid0 mid0 = some m ∧
        findMsg (updateMsgDb db cid0 mid0 f) cid mid = some (f m) := by
  have hqm : ∀ m : Message, ((f m).id == mid) = (m.id == mid) := by
    intro m; rw [hid m]
  rcases updateFirst_find?_other (fun c => c.id == cid0) (fun c => c.id == cid)
      (fun c => { c with
        messages := updateFirst (fun m => m.id == mid0) f c.messages })
      db.chats (fun _ => rfl) with hout | ⟨c0, hq, hp, hres⟩
  · left
    show (List.find? _ (updateFirst _ _ db.chats)).bind _
      = (db.chats.find? _).bind _
    rw [hout]
  · rcases updateFirst_find?_other (fun m => m.id == mid0)
        (fun m => m.id == mid) f c0.messages hqm
      with hin | ⟨m0, hq2, hp2, hres2⟩
    · left
      show (List.find? _ (updateFirst _ _ db.chats)).bind _
        = (db.chats.find? _).bind _
      rw [hres, hq, Option.some_bind, Option.some_bind]
      exact hin
    · right
      refine ⟨m0, ?_, ?_, ?_⟩
      · show (db.chats.find? _).bind _ = _
        rw [hq, Option.some_bind]; exact hq2
      · show (db.chats.find? _).bind _ = _
        rw [hp, Option.some_bind]; exact hp2
      · show (List.find? _ (updateFirst _ _ db.chats)).bind _ = _
        rw [hres, Option.some_bind]; exact hres2

/-- The written `(cid0, mid0)` lookup itself sees exactly the rewrite. -/
theorem findMsg_updateMsgDb_self (db : Db) (cid0 mid0 : String)
    (f : Message → Message) (hid : ∀ m, (f m).id = m.id) :
    findMsg (updateMsgDb db cid0 mid0 f) cid0 mid0 =
      (findMsg db cid0 mid0).map f := by
  have hqm : ∀ m : Message, ((f m).id == mid0) = (m.id == mid0) := by
    intro m; rw [hid m]
  have hout := updateFirst_find?_self (fun c => c.id == cid0)
    (fun c => { c with
      messages := updateFirst (fun m => m.id == mid0) f c.messages })
    db.chats (fun _ => rfl)
  show (List.find? _ (updateFirst _ _ db.chats)).bind _
    = ((db.chats.find? _).bind _).map f
  rw [hout]
  cases hc : db.chats.find? (fun c => c.id == cid0) with
  | none => rfl
  | some c0 =>
    rw [Option.map_some', Option.some_bind, Option.some_bind]
    show List.find? _ (updateFirst _ f c0.messages) = _
    rw [updateFirst_find?_self (fun m => m.id == mid0) f c0.messages hqm]

/-- What any `(cid, mid)` lookup sees after the lookup-or-create-then-push
of the chat routes: either its answer is untouched, or it used to be
`none` and now denotes one of the pushed messages. -/
theorem findMsg_push (db : Db) (findId createId : String) (ms : List Message)
    (cid mid : String) :
    findMsg (findOrCreatePush db findId createId ms) cid mid
        = findMsg db cid mid ∨
      ∃ m, m ∈ ms ∧ findMsg db cid mid = none ∧
        findMsg (findOrCreatePush db findId createId ms) cid mid = some m := by
  cases hf : db.chats.find? (fun c => c.id == findId) with
  | some chat =>
    have hmain : findOrCreatePush db findId createId ms
        = { db with
            chats := updateFirst (fun c => c.id == findId) (pushIntoChat ms)
              db.chats } := by
      unfold findOrCreatePush
      rw [hf]
    rcases updateFirst_find?_other (fun c => c.id == findId)
        (fun c => c.id == cid) (pushIntoChat ms) db.chats
        (fun _ => rfl) with hout | ⟨c0, hq, hp, hres⟩
    · left
      rw [hmain]
      show (List.find? _ (updateFirst _ _ db.chats)).bind _
        = (db.chats.find? _).bind _
      rw [hout]
    · have hupd : findMsg (findOrCreatePush db findId createId ms) cid mid
          = (c0.messages.find? (fun m => m.id == mid)).or
            (ms.find? (fun m => m.id == mid)) := by
        rw [hmain]
        show (List.find? _ (updateFirst _ _ db.chats)).bind _ = _
        rw [hres, Option.some_bind]
        show (c0.messages ++ ms).find? _ = _
        exact List.find?_append
      have hold : findMsg db cid mid
          = c0.messages.find? (fun m => m.id == mid) := by
        show (db.chats.find? _).bind _ = _
        rw [hq, Option.some_bind]
      cases hcm : c0.messages.find? (fun m => m.id == mid) with
      | some m' =>
        left
        rw [hupd, hold, hcm, Option.or_some]
      | none =>
        cases hms : ms.find? (fun m => m.id == mid) with
        | none =>
          left
          rw [hupd, hold, hcm, hms]
          rfl
        | some m =>
          right
          exact ⟨m, List.mem_of_find?_eq_some hms,
            by rw [hold, hcm],
            by rw [hupd, hcm, hms]; rfl⟩
  | none =>
    have hmain : findOrCreatePush db findId createId ms
        = { db with chats := db.chats ++ [⟨createId, "Untitled Chat", ms⟩] } := by
      unfold findOrCreatePush
      rw [hf]
    have hupd : findMsg (findOrCreatePush db findId createId ms) cid mid
        = findMsgIn (db.chats ++ [⟨createId, "Untitled Chat", ms⟩]) cid mid := by
      rw [hmain]
      rfl
    rw [hupd, findMsgIn_append_one]
    by_cases hcond : db.chats.find? (fun x => x.id == cid) = none ∧
        ((⟨createId, "Untitled Chat", ms⟩ : ChatSession).id == cid) = true
    · have hproj : (List.find? (fun m => m.id == mid)
          (⟨createId, "Untitled Chat", ms⟩ : ChatSession).messages)
          = ms.find? (fun m => m.id == mid) := rfl
      rw [if_pos hcond, hproj]
      have hold : findMsg db cid mid = none := by
        show (db.chats.find? _).bind _ = _
        rw [hcond.1]; rfl
      cases hms : ms.find? (fun m => m.id == mid) with
      | none => left; rw [hold]
      | some m =>
        right
        exact ⟨m, List.mem_of_find?_eq_some hms, hold, rfl⟩
    · rw [if_neg hcond]
      left
      rfl

/-- Route `POST /api/reactions` with an unknown chat id. -/
theorem react_chatNotFound {db : Db} {cid mid ty : String}
    (h : db.chats.find? (fun c => c.id == cid) = none) :
    react db cid mid ty = .error .chatNotFound := by
  unfold react
  simp only [h]

/-- Route `POST /api/reactions` with a known chat but unknown message id. -/
theorem react_messageNotFound {db : Db} {cid mid ty : String}
    {chat : ChatSession}
    (hc : db.chats.find? (fun c => c.id == cid) = some chat)
    (hm : chat.messages.find? (fun m => m.id == mid) = none) :
    react db cid mid ty = .error .messageNotFound := by
  unfold react
  simp only [hc, hm]

/-- Route `POST /api/reactions` with an existing message: the forward equation. -/
theorem react_eq_ok {db : Db} {cid mid ty : String} {chat : ChatSession}
    {msg : Message}
    (hc : db.chats.find? (fun c => c.id == cid) = some chat)
    (hm : chat.messages.find? (fun m => m.id == mid) = some msg) :
    react db cid mid ty
      = .ok (bumpReactions (msg.reactions.getD ⟨0, 0⟩) ty,
          updateMsgDb db cid mid (fun m => { m with
            reactions := some (bumpReactions (msg.reactions.getD ⟨0, 0⟩)
              ty) })) := by
  unfold react
  simp only [hc, hm]

/-- Inversion of a successful `POST /api/reactions`. -/
theorem react_ok_inv {db : Db} {cid mid ty : String} {r : Reactions} {db' : Db}
    (h : react db cid mid ty = .ok (r, db')) :
    ∃ msg, findMsg db cid mid = some msg ∧
      r = bumpReactions (msg.reactions.getD ⟨0, 0⟩) ty ∧
      db' = updateMsgDb db cid mid (fun m => { m with reactions := some r }) := by
  cases hc : db.chats.find? (fun c => c.id == cid) with
  | none => rw [react_chatNotFound hc] at h; exact Except.noConfusion h
  | some chat =>
    cases hm : chat.messages.find? (fun m => m.id == mid) with
    | none => rw [react_messageNotFound hc hm] at h; exact Except.noConfusion h
    | some msg =>
      rw [react_eq_ok hc hm] at h
      simp only [Except.ok.injEq, Prod.mk.injEq] at h
      obtain ⟨h1, h2⟩ := h
      refine ⟨msg, ?_, h1.symm, ?_⟩
      · show (db.chats.find? _).bind _ = _
        rw [hc, Option.some_bind, hm]
      · rw [← h2, ← h1]

/-- Route `POST /api/comments` with an unknown chat id. -/
theorem comment_chatNotFound {db : Db} {cid mid text fid : String} {now : Nat}
    (h : db.chats.find? (fun c => c.id == cid) = none) :
    comment db cid mid text fid now = .error .chatNotFound := by
  unfold comment
  simp only [h]

/-- Route `POST /api/comments` with a known chat but unknown message id. -/
theorem comment_messageNotFound {db : Db} {cid mid text fid : String}
    {now : Nat} {chat : ChatSession}
    (hc : db.chats.find? (fun c => c.id == cid) = some chat)
    (hm : chat.messages.find? (fun m => m.id == mid) = none) :
    comment db cid mid text fid now = .error .messageNotFound := by
  unfold comment
  simp only [hc, hm]

/-- Route `POST /api/comments` with an existing message: the forward equation. -/
theorem comment_eq_ok {db : Db} {cid mid text fid : String} {now : Nat}
    {chat : ChatSession} {msg : Message}
    (hc : db.chats.find? (fun c => c.id == cid) = some chat)
    (hm : chat.messages.find? (fun m => m.id == mid) = some msg) :
    comment db cid mid text fid now
      = .ok (msg.comments.getD [] ++ [⟨fid, text, now⟩],
          updateMsgDb db cid mid (fun m => { m with
            comments := some (msg.comments.getD []
              ++ [⟨fid, text, now⟩]) })) := by
  unfold comment
  simp only [hc, hm]

/-- Inversion of a successful `POST /api/comments`. -/
theorem comment_ok_inv {db : Db} {cid mid text fid : String} {now : Nat}
    {cs : List Comment} {db' : Db}
    (h : comment db cid mid text fid now = .ok (cs, db')) :
    ∃ msg, findMsg db cid mid = some msg ∧
      cs = msg.comments.getD [] ++ [⟨fid, text, now⟩] ∧
      db' = updateMsgDb db cid mid (fun m => { m with comments := some cs }) := by
  cases hc : db.chats.find? (fun c => c.id == cid) with
  | none => rw [comment_chatNotFound hc] at h; exact Except.noConfusion h
  | some chat =>
    cases hm : chat.messages.find? (fun m => m.id == mid) with
    | none =>
      rw [comment_messageNotFound hc hm] at h
      exact Except.noConfusion h
    | some msg =>
      rw [comment_eq_ok hc hm] at h
      simp only [Except.ok.injEq, Prod.mk.injEq] at h
      obtain ⟨h1, h2⟩ := h
      refine ⟨msg, ?_, h1.symm, ?_⟩
      · show (db.chats.find? _).bind _ = _
        rw [hc, Option.some_bind, hm]
      · rw [← h2, ← h1]

/-- Fact: `bumpReactions` never decreases a counter. -/
theorem bumpReactions_le (r : Reactions) (ty : String) :
    r.up ≤ (bumpReactions r ty).up ∧ r.down ≤ (bumpReactions r ty).down := by
  unfold bumpReactions
  constructor <;> dsimp only <;> split <;> omega

/-- Fact: `bumpReactions` with a direction that is neither `"up"` nor `"down"`
changes nothing. -/
theorem bumpReactions_other (r : Reactions) (ty : String)
    (h1 : (ty == "up") = false) (h2 : (ty == "down") = false) :
    bumpReactions r ty = r := by
  unfold bumpReactions
  rw [h1, h2]
  simp

/-- Counter reading after a `findOrCreatePush` whose pushed messages carry
no reactions: unchanged. -/
theorem viewReactions_push_le (db : Db) (findId createId : String)
    (ms : List Message) (hms : ∀ m ∈ ms, m.reactions = none)
    (cid mid : String) :
    (viewReactions db cid mid).up
        ≤ (viewReactions (findOrCreatePush db findId createId ms) cid mid).up ∧
      (viewReactions db cid mid).down
        ≤ (viewReactions (findOrCreatePush db findId createId ms) cid
            mid).down := by
  rcases findMsg_push db findId createId ms cid mid with h | ⟨m, hmem, hn, hs⟩
  · unfold viewReactions
    rw [h]
    exact ⟨Nat.le_refl _, Nat.le_refl _⟩
  · unfold viewReactions
    rw [hn, hs, Option.some_bind, hms m hmem]
    exact ⟨Nat.le_refl _, Nat.le_refl _⟩

/-- Rewriting to the index-free form of the `i + 1`-th chunk. -/
theorem serverChunk_cons_succ (w : String) (ws : List String) (i : Nat) :
    serverChunk (w :: ws) (i + 1) = serverChunk ws i := by
  unfold serverChunk
  rw [List.getD_cons_succ]
  congr 1
  simp [Nat.succ_lt_succ_iff]

/-- Unfolding one chunk of the interval emitter. -/
theorem serverChunks_cons (w : String) (ws : List String) :
    serverChunks (w :: ws)
      = (w ++ if 0 < ws.length then " " else "") :: serverChunks ws := by
  unfold serverChunks
  rw [List.length_cons, List.range_succ_eq_map, List.map_cons, List.map_map]
  congr 1
  · show serverChunk (w :: ws) 0 = _
    unfold serverChunk
    rw [List.getD_cons_zero]
    congr 1
    simp [Nat.succ_lt_succ_iff]
  · exact List.map_congr_left (fun i _ => serverChunk_cons_succ w ws i)

/-- The chunk deltas concatenate to the space-joined word list, i.e. to the
original full text. -/
theorem join_serverChunks (words : List String) :
    String.join (serverChunks words) = joinSep " " words := by
  induction words with
  | nil => rfl
  | cons w ws ih =>
    rw [serverChunks_cons, join_cons, ih]
    cases ws with
    | nil =>
      show (w ++ if (0 : Nat) < 0 then " " else "") ++ joinSep " " [] = w
      rw [if_neg (by omega)]
      show (w ++ "") ++ "" = w
      rw [String.append_empty, String.append_empty]
    | cons b bs =>
      rw [List.length_cons, if_pos (Nat.succ_pos bs.length)]
      show (w ++ " ") ++ joinSep " " (b :: bs) = w ++ " " ++ joinSep " " (b :: bs)
      rfl

/-- The client's stream buffer after consuming deltas in delivery order. -/
theorem consumeChunks_buffer (pid : String) (s : ClientState)
    (ds : List String) :
    (consumeChunks pid s ds).streamBuffer
      = s.streamBuffer ++ String.join ds := by
  induction ds generalizing s with
  | nil =>
    show s.streamBuffer = s.streamBuffer ++ String.join []
    rw [show String.join [] = "" from rfl, String.append_empty]
  | cons d ds ih =>
    show (consumeChunks pid (applyChunk pid s d) ds).streamBuffer = _
    rw [ih (applyChunk pid s d)]
    show (s.streamBuffer ++ d) ++ String.join ds = _
    rw [join_cons, String.append_assoc]

/-- One `chunk` event keeps the placeholder present and rewrites its content
to the whole new buffer. -/
theorem applyChunk_found (pid : String) (s : ClientState) (d : String)
    (h : (s.messages.find? (fun m => m.id == pid)).isSome = true) :
    contentOf (applyChunk pid s d) pid = (applyChunk pid s d).streamBuffer ∧
      ((applyChunk pid s d).messages.find?
        (fun m => m.id == pid)).isSome = true := by
  have hpred : (fun m : ClientMessage =>
      ((if m.id == pid then
          { m with content := s.streamBuffer ++ d } else m).id == pid))
      = (fun m : ClientMessage => m.id == pid) := by
    funext m
    by_cases hm : (m.id == pid) = true
    · rw [if_pos hm]
    · rw [if_neg hm]
  cases hf : s.messages.find? (fun m => m.id == pid) with
  | none => rw [hf] at h; exact Bool.noConfusion h
  | some m0 =>
    have hpm : (m0.id == pid) = true :=
      @List.find?_some _ (fun m : ClientMessage => m.id == pid) m0
        s.messages hf
    have hmap : (applyChunk pid s d).messages.find? (fun m => m.id == pid)
        = some { m0 with content := s.streamBuffer ++ d } := by
      show (s.messages.map _).find? _ = _
      rw [List.find?_map]
      show ((s.messages.find? (fun m =>
        ((if m.id == pid then
            { m with content := s.streamBuffer ++ d } else m).id == pid))).map _)
        = _
      rw [hpred, hf, Option.map_some']
      show some (if (m0.id == pid) = true then _ else m0) = _
      rw [if_pos hpm]
    constructor
    · show ((((applyChunk pid s d).messages.find? (fun m => m.id == pid)).map
        (fun m => m.content)).getD "") = _
      rw [hmap]
      rfl
    · rw [hmap]
      rfl

/-- Consuming deltas keeps the placeholder present, with content equal to
the running buffer. -/
theorem consume_invariant (pid : String) (ds : List String) :
    ∀ s : ClientState,
      (s.messages.find? (fun m => m.id == pid)).isSome = true →
      contentOf s pid = s.streamBuffer →
      contentOf (consumeChunks pid s ds) pid
          = (consumeChunks pid s ds).streamBuffer ∧
        ((consumeChunks pid s ds).messages.find?
          (fun m => m.id == pid)).isSome = true := by
  induction ds with
  | nil => intro s h1 h2; exact ⟨h2, h1⟩
  | cons d ds ih =>
    intro s h1 _
    obtain ⟨hc, hf⟩ := applyChunk_found pid s d h1
    exact ih (applyChunk pid s d) hf hc

/-! ## Claims -/

/-- C2, counterexample.  The claim says that with an empty available
document list, citation resolution yields `NoDocumentAvailable` and the
finalized message carries no citations and no invented document id.  In the
code, `pickPrimaryDocId []` is `""`, and the stream route then falls back
to its own `db.docs[0]?.id || "d1"`: even against a server with no
documents at all, the finalized message carries two citations with the
invented document id `"d1"`. -/
theorem C2_counterexample :
    pickPrimaryDocId [] = "" ∧
    (Db.mk (seedChats 0) []).docs = [] ∧
    (streamRun (Db.mk (seedChats 0) []) "c1" "hi" (pickPrimaryDocId [])
      ["w"] "u" "a" 1 2).doneMsg.citations
      = some [⟨"[1]", "d1", some 2⟩, ⟨"[2]", "d1", some 5⟩] ∧
    some [(⟨"[1]", "d1", some 2⟩ : Citation), ⟨"[2]", "d1", some 5⟩]
      ≠ (none : Option (List Citation)) := by
  refine ⟨rfl, rfl, rfl, ?_⟩
  decide

/-- C2, amended.  When the chunk cites no explicit document, the client
selects as `primaryDocId` the first PDF-like document (so for documents
`[{id:"d1", type:"pdf"}, {id:"d2", type:"docx"}]` it resolves `"d1"`),
else the first document, else the empty string; with an empty caller
document list the server never yields a `NoDocumentAvailable` error but
falls back to its own first document id (or the literal `"d1"`), and the
finalized message always carries exactly those two citations. -/
theorem C2_amended :
    pickPrimaryDocId [⟨"d1", "doc1", some "pdf"⟩, ⟨"d2", "doc2", some "docx"⟩]
        = "d1" ∧
    pickPrimaryDocId [] = "" ∧
    ∀ (db : Db) (chatId message : String) (words : List String)
      (uid aid : String) (now now2 : Nat),
      (streamRun db chatId message (pickPrimaryDocId []) words uid aid now
        now2).doneMsg.citations = some (mkCitations (targetDocId db "")) := by
  refine ⟨by decide, rfl, ?_⟩
  intro db chatId message words uid aid now now2
  rfl

/-- C4, counterexample.  The claim says starting a stream on a chatId
unknown to the store fails with `InvalidContext` and creates no session.
The code's stream route instead silently creates the chat: `"c999"` does
not exist in the seeded store, yet after a stream run it does, and the run
produced no error (its result type has no error case). -/
theorem C4_counterexample :
    ((dbInit 0).chats.find? (fun c => c.id == "c999")) = none ∧
    ((streamRun (dbInit 0) "c999" "hi" "" ["w"] "u" "a" 1 2).db.chats.find?
      (fun c => c.id == "c999"))
      = some ⟨"c999", "Untitled Chat",
          [⟨"u", "user", "hi", 1, none, none, none⟩,
           (streamRun (dbInit 0) "c999" "hi" "" ["w"] "u" "a" 1 2).doneMsg]⟩ := by
  constructor
  · decide
  · rfl

/-- C4, amended.  Starting a stream on a chatId that does not exist in the
store never fails: the route silently creates a session with that id and
title `"Untitled Chat"` holding exactly the new user message and the
finalized assistant message, and appends it at the end of the chat list. -/
theorem C4_amended (db : Db) (chatId message primaryDocId : String)
    (words : List String) (uid aid : String) (now now2 : Nat)
    (h : db.chats.find? (fun c => c.id == chatId) = none) :
    (streamRun db chatId message primaryDocId words uid aid now now2).db.chats
      = db.chats ++ [⟨chatId, "Untitled Chat",
          [⟨uid, "user", message, now, none, none, none⟩,
           (streamRun db chatId message primaryDocId words uid aid now
             now2).doneMsg]⟩] := by
  show (findOrCreatePush db chatId chatId _).chats = _
  unfold findOrCreatePush
  rw [h]
  rfl

/-- C4 witness: on the seeded store, chat `"c999"` is absent, and a stream
run on it appends the implicit session. -/
theorem C4_amended_witness :
    (streamRun (dbInit 0) "c999" "hi" "" ["w"] "u" "a" 1 2).db.chats
      = (dbInit 0).chats ++ [⟨"c999", "Untitled Chat",
          [⟨"u", "user", "hi", 1, none, none, none⟩,
           (streamRun (dbInit 0) "c999" "hi" "" ["w"] "u" "a" 1 2).doneMsg]⟩] :=
  C4_amended (dbInit 0) "c999" "hi" "" ["w"] "u" "a" 1 2 (by decide)

/-- C5, counterexample.  The claim says empty or whitespace-only text is
rejected with `EmptyComment`, leaving the comment list unchanged.  The
server's comment route performs no text validation: posting the empty
string on the seeded message `m2` (whose list is empty) succeeds and
returns a grown list. -/
theorem C5_counterexample :
    (comment (dbInit 0) "c1" "m2" "" "f1" 7).toOption.map Prod.fst
      = some [⟨"f1", "", 7⟩] ∧
    ([⟨"f1", "", 7⟩] : List Comment) ≠ viewComments (dbInit 0) "c1" "m2" := by
  constructor
  · rfl
  · decide

/-- C5, amended.  For an existing message the comment operation appends
exactly one `Comment` with the supplied fresh id and current timestamp and
returns the updated ordered list — for any text, including empty or
whitespace-only text: the server performs no `EmptyComment` validation
(the only guard is the client's silent `submitComment` trim, which sends
no request). -/
theorem C5_amended (db : Db) (cid mid text fid : String) (now : Nat)
    (h : (findMsg db cid mid).isSome = true) :
    ∃ db', comment db cid mid text fid now
        = .ok (viewComments db cid mid ++ [⟨fid, text, now⟩], db') ∧
      viewComments db' cid mid
        = viewComments db cid mid ++ [⟨fid, text, now⟩] := by
  cases hc : db.chats.find? (fun c => c.id == cid) with
  | none =>
    rw [show findMsg db cid mid = none from by
      show (db.chats.find? _).bind _ = _
      rw [hc]
      rfl] at h
    exact Bool.noConfusion h
  | some chat =>
    cases hm : chat.messages.find? (fun m => m.id == mid) with
    | none =>
      rw [show findMsg db cid mid = none from by
        show (db.chats.find? _).bind _ = _
        rw [hc, Option.some_bind, hm]] at h
      exact Bool.noConfusion h
    | some msg =>
      have hfind : findMsg db cid mid = some msg := by
        show (db.chats.find? _).bind _ = _
        rw [hc, Option.some_bind, hm]
      have hview : viewComments db cid mid = msg.comments.getD [] := by
        unfold viewComments
        rw [hfind, Option.some_bind]
      refine ⟨updateMsgDb db cid mid (fun m => { m with
        comments := some (viewComments db cid mid ++ [⟨fid, text, now⟩]) }),
        ?_, ?_⟩
      · rw [comment_eq_ok hc hm, hview]
      · have hself := findMsg_updateMsgDb_self db cid mid
          (fun m => { m with comments := some (viewComments db cid mid
            ++ [⟨fid, text, now⟩]) }) (fun m => rfl)
        unfold viewComments
        unfold viewComments at hself
        rw [hself, hfind, Option.map_some', Option.some_bind]
        rfl

/-- C5 witness: commenting `"hello"` on the seeded `m2` (empty comment
list) returns the one-element list. -/
theorem C5_amended_witness :
    ∃ db', comment (dbInit 0) "c1" "m2" "hello" "f1" 7
      = .ok ([⟨"f1", "hello", 7⟩], db') := by
  obtain ⟨db', h1, _⟩ :=
    C5_amended (dbInit 0) "c1" "m2" "hello" "f1" 7 (by decide)
  rw [show viewComments (dbInit 0) "c1" "m2" = [] from by decide,
    List.nil_append] at h1
  exact ⟨db', h1⟩

/-- C6, counterexample.  The claim says a reaction on an absent chat fails
with `MessageNotFound`; the code distinguishes the two lookups and replies
`"Chat not found"` (modelled `chatNotFound`) when the chat is absent. -/
theorem C6_counterexample :
    react (dbInit 0) "zz" "m1" "up" = .error .chatNotFound ∧
    ApiError.chatNotFound ≠ ApiError.messageNotFound := by
  constructor
  · exact react_chatNotFound (by decide)
  · decide

/-- C6, amended.  For an existing message, `react` with direction `"up"`
(resp. `"down"`) increments exactly that counter by 1, leaves the other
unchanged, returns the updated pair, and persists it; counters are read
lazily as `(0,0)` before the first reaction.  An absent chat fails with
`chatNotFound` (the code's `"Chat not found"`), and an absent message in
an existing chat fails with `messageNotFound`. -/
theorem C6_amended (db : Db) (cid mid : String) :
    (db.chats.find? (fun c => c.id == cid) = none →
      ∀ ty, react db cid mid ty = .error .chatNotFound) ∧
    ((db.chats.find? (fun c => c.id == cid)).isSome = true →
      findMsg db cid mid = none →
      ∀ ty, react db cid mid ty = .error .messageNotFound) ∧
    ((findMsg db cid mid).isSome = true →
      (∃ db', react db cid mid "up"
          = .ok (⟨(viewReactions db cid mid).up + 1,
                  (viewReactions db cid mid).down⟩, db') ∧
        viewReactions db' cid mid
          = ⟨(viewReactions db cid mid).up + 1,
             (viewReactions db cid mid).down⟩) ∧
      (∃ db', react db cid mid "down"
          = .ok (⟨(viewReactions db cid mid).up,
                  (viewReactions db cid mid).down + 1⟩, db') ∧
        viewReactions db' cid mid
          = ⟨(viewReactions db cid mid).up,
             (viewReactions db cid mid).down + 1⟩)) := by
  refine ⟨fun h ty => react_chatNotFound h, ?_, fun h => ?_⟩
  · intro hsome hnone ty
    cases hc : db.chats.find? (fun c => c.id == cid) with
    | none => rw [hc] at hsome; exact Bool.noConfusion hsome
    | some chat =>
      have hm : chat.messages.find? (fun m => m.id == mid) = none := by
        have : findMsg db cid mid
            = chat.messages.find? (fun m => m.id == mid) := by
          show (db.chats.find? _).bind _ = _
          rw [hc, Option.some_bind]
        rw [← this, hnone]
      exact react_messageNotFound hc hm
  cases hc : db.chats.find? (fun c => c.id == cid) with
  | none =>
    rw [show findMsg db cid mid = none from by
      show (db.chats.find? _).bind _ = _
      rw [hc]
      rfl] at h
    exact Bool.noConfusion h
  | some chat =>
    cases hm : chat.messages.find? (fun m => m.id == mid) with
    | none =>
      rw [show findMsg db cid mid = none from by
        show (db.chats.find? _).bind _ = _
        rw [hc, Option.some_bind, hm]] at h
      exact Bool.noConfusion h
    | some msg =>
      have hfind : findMsg db cid mid = some msg := by
        show (db.chats.find? _).bind _ = _
        rw [hc, Option.some_bind, hm]
      have hview : viewReactions db cid mid = msg.reactions.getD ⟨0, 0⟩ := by
        unfold viewReactions
        rw [hfind, Option.some_bind]
      have hbumpUp : bumpReactions (msg.reactions.getD ⟨0, 0⟩) "up"
          = ⟨(viewReactions db cid mid).up + 1,
             (viewReactions db cid mid).down⟩ := by
        unfold bumpReactions
        rw [hview]
        simp
      have hbumpDown : bumpReactions (msg.reactions.getD ⟨0, 0⟩) "down"
          = ⟨(viewReactions db cid mid).up,
             (viewReactions db cid mid).down + 1⟩ := by
        unfold bumpReactions
        rw [hview]
        simp
      constructor
      · refine ⟨updateMsgDb db cid mid (fun m => { m with
          reactions := some ⟨(viewReactions db cid mid).up + 1,
            (viewReactions db cid mid).down⟩ }), ?_, ?_⟩
        · rw [react_eq_ok hc hm, hbumpUp]
        · have hself := findMsg_updateMsgDb_self db cid mid
            (fun m => { m with
              reactions := some ⟨(viewReactions db cid mid).up + 1,
                (viewReactions db cid mid).down⟩ }) (fun m => rfl)
          unfold viewReactions
          unfold viewReactions at hself
          rw [hself, hfind, Option.map_some', Option.some_bind]
          rfl
      · refine ⟨updateMsgDb db cid mid (fun m => { m with
          reactions := some ⟨(viewReactions db cid mid).up,
            (viewReactions db cid mid).down + 1⟩ }), ?_, ?_⟩
        · rw [react_eq_ok hc hm, hbumpDown]
        · have hself := findMsg_updateMsgDb_self db cid mid
            (fun m => { m with
              reactions := some ⟨(viewReactions db cid mid).up,
                (viewReactions db cid mid).down + 1⟩ }) (fun m => rfl)
          unfold viewReactions
          unfold viewReactions at hself
          rw [hself, hfind, Option.map_some', Option.some_bind]
          rfl

/-- C6 witness: on the seeded store, an absent chat gives `chatNotFound`,
an absent message gives `messageNotFound`, an up-reaction on `m2`
(counters `(2,0)`) returns `(3,0)`, and an up-reaction on `m1` (no
reactions yet, lazily `(0,0)`) returns `(1,0)`. -/
theorem C6_amended_witness :
    react (dbInit 0) "zz" "m1" "up" = .error .chatNotFound ∧
    react (dbInit 0) "c1" "nope" "up" = .error .messageNotFound ∧
    (react (dbInit 0) "c1" "m2" "up").toOption.map Prod.fst = some ⟨3, 0⟩ ∧
    (react (dbInit 0) "c1" "m1" "up").toOption.map Prod.fst = some ⟨1, 0⟩ := by
  refine ⟨(C6_amended (dbInit 0) "zz" "m1").1 (by decide) "up",
    (C6_amended (dbInit 0) "c1" "nope").2.1 (by decide) (by decide) "up",
    ?_, ?_⟩
  · obtain ⟨db', h1, _⟩ := ((C6_amended (dbInit 0) "c1" "m2").2.2
      (by decide)).1
    rw [h1]
    rw [show viewReactions (dbInit 0) "c1" "m2" = ⟨2, 0⟩ from by decide]
    rfl
  · obtain ⟨db', h1, _⟩ := ((C6_amended (dbInit 0) "c1" "m1").2.2
      (by decide)).1
    rw [h1]
    rw [show viewReactions (dbInit 0) "c1" "m1" = ⟨0, 0⟩ from by decide]
    rfl

/-- C10, confirmed.  For an existing message, `react` with a direction
outside `{"up", "down"}` succeeds without error: both `if`s are skipped, so
it returns the current (lazily initialised) counters unchanged, and the
stored counters are unchanged too. -/
theorem C10_react_other_direction (db : Db) (cid mid ty : String)
    (h1 : (ty == "up") = false) (h2 : (ty == "down") = false)
    (h : (findMsg db cid mid).isSome = true) :
    ∃ db', react db cid mid ty = .ok (viewReactions db cid mid, db') ∧
      viewReactions db' cid mid = viewReactions db cid mid := by
  cases hc : db.chats.find? (fun c => c.id == cid) with
  | none =>
    rw [show findMsg db cid mid = none from by
      show (db.chats.find? _).bind _ = _
      rw [hc]
      rfl] at h
    exact Bool.noConfusion h
  | some chat =>
    cases hm : chat.messages.find? (fun m => m.id == mid) with
    | none =>
      rw [show findMsg db cid mid = none from by
        show (db.chats.find? _).bind _ = _
        rw [hc, Option.some_bind, hm]] at h
      exact Bool.noConfusion h
    | some msg =>
      have hfind : findMsg db cid mid = some msg := by
        show (db.chats.find? _).bind _ = _
        rw [hc, Option.some_bind, hm]
      have hview : viewReactions db cid mid = msg.reactions.getD ⟨0, 0⟩ := by
        unfold viewReactions
        rw [hfind, Option.some_bind]
      have hbump : bumpReactions (msg.reactions.getD ⟨0, 0⟩) ty
          = viewReactions db cid mid := by
        rw [bumpReactions_other _ _ h1 h2, hview]
      refine ⟨updateMsgDb db cid mid (fun m => { m with
        reactions := some (viewReactions db cid mid) }), ?_, ?_⟩
      · rw [react_eq_ok hc hm, hbump]
      · have hself := findMsg_updateMsgDb_self db cid mid
          (fun m => { m with
            reactions := some (viewReactions db cid mid) }) (fun m => rfl)
        unfold viewReactions
        unfold viewReactions at hself
        rw [hself, hfind, Option.map_some', Option.some_bind]
        rfl

/-- C10 witness: reacting with direction `"sideways"` on the seeded `m2`
(counters `(2,0)`) succeeds and returns `(2,0)` unchanged. -/
theorem C10_react_other_direction_witness :
    ∃ db', react (dbInit 0) "c1" "m2" "sideways"
      = .ok (viewReactions (dbInit 0) "c1" "m2", db') ∧
      viewReactions (dbInit 0) "c1" "m2" = ⟨2, 0⟩ := by
  obtain ⟨db', h1, _⟩ := C10_react_other_direction (dbInit 0) "c1" "m2"
    "sideways" (by decide) (by decide) (by decide)
  exact ⟨db', h1, by decide⟩

/-- The ordering clause of C7's claim, written out as a definition for
comparison with the code: one summary per session, *most-recently-created
first*.  Chats carry no creation timestamp; their creation order is the
insertion order of `db.chats` (`POST /api/chats` pushes at the end), so
most-recently-created first with insertion-order tie-breaking is the
reverse of insertion order. -/
def specListSessions (db : Db) : List ChatSummary :=
  (db.chats.reverse).map summarize

/-- C7, counterexample.  After creating `"c3"` on the seeded store the code
returns summaries `[c1, c2, c3]` — creation order, oldest first — while
the claim requires most-recently-created first, i.e. `[c3, c2, c1]`. -/
theorem C7_counterexample :
    (listSessions ((postChat (dbInit 0) (some "T3") "c3").2)).map
        (fun s => s.id) = ["c1", "c2", "c3"] ∧
    listSessions ((postChat (dbInit 0) (some "T3") "c3").2)
      ≠ specListSessions ((postChat (dbInit 0) (some "T3") "c3").2) := by
  constructor
  · rfl
  · decide

/-- C7, amended.  `listSessions` returns one summary per session — id,
title, message count, and the timestamp of the last message or none — in
session *creation (insertion) order, oldest first*: a newly created
session's summary appears at the end of the list, not the front. -/
theorem C7_amended (db : Db) (title : Option String) (fid : String) :
    (listSessions db).map (fun s => s.id) = db.chats.map (fun c => c.id) ∧
    (∀ c : ChatSession, summarize c = ⟨c.id, c.title, c.messages.length,
      c.messages.getLast?.map (fun m => m.createdAt)⟩) ∧
    listSessions (postChat db title fid).2
      = listSessions db ++ [summarize (postChat db title fid).1] := by
  refine ⟨?_, ?_, ?_⟩
  · show (db.chats.map summarize).map (fun s => s.id) = _
    rw [List.map_map]
    rfl
  · intro c
    unfold summarize
    cases hms : c.messages with
    | nil => rfl
    | cons m ms =>
      rw [if_pos (by simp)]
      rw [List.getLast?_eq_getElem?]
  · show (db.chats ++ [(postChat db title fid).1]).map summarize = _
    rw [List.map_append]
    rfl

/-- C1, counterexample.  The claim says a chunk is applied only if its
sequence number is the next expected one, so delivering the same chunk
twice never duplicates text.  The code's chunk listener has no sequence
numbers and appends every delivered delta to the buffer: delivering the
single underlying chunk of the one-word answer `["a"]` twice leaves the
placeholder with `"aa"`, not the in-sequence concatenation `"a"`. -/
theorem C1_counterexample :
    serverChunks ["a"] = ["a"] ∧
    contentOf (consumeChunks "p" (startStream ⟨[], "", false, ""⟩ "q" "u" "p")
      (serverChunks ["a"] ++ serverChunks ["a"])) "p" = "aa" ∧
    ("aa" : String) ≠ "a" := by
  refine ⟨rfl, rfl, ?_⟩
  decide

/-- C1, amended.  After `startStream`, consuming the delivered `chunk`
events in delivery order leaves the placeholder's content equal to the
concatenation of *all delivered deltas in delivery order*: in-order,
exactly-once delivery of the server's chunks yields exactly the full text
(`join_serverChunks`), but the client applies every delta unconditionally
— there is no sequence number and no duplicate filtering, so redelivery
appends again (see the counterexample). -/
theorem C1_amended (s : ClientState) (prompt uid pid : String)
    (ds : List String)
    (hfresh : s.messages.find? (fun m => m.id == pid) = none)
    (hu : (uid == pid) = false) :
    contentOf (consumeChunks pid (startStream s prompt uid pid) ds) pid
      = String.join ds := by
  have hfind : (startStream s prompt uid pid).messages.find?
      (fun m => m.id == pid)
      = some ⟨pid, "assistant", "", none, none, none⟩ := by
    show (s.messages ++
      [(⟨uid, "user", prompt, none, none, none⟩ : ClientMessage),
       (⟨pid, "assistant", "", none, none, none⟩ : ClientMessage)]).find? _ = _
    rw [List.find?_append, hfresh, Option.none_or]
    rw [@List.find?_cons_of_neg _ (fun m : ClientMessage => m.id == pid)
      ⟨uid, "user", prompt, none, none, none⟩ _ (by simpa using hu)]
    rw [@List.find?_cons_of_pos _ (fun m : ClientMessage => m.id == pid)
      ⟨pid, "assistant", "", none, none, none⟩ [] (by simp)]
  have hcontent : contentOf (startStream s prompt uid pid) pid = "" := by
    unfold contentOf
    rw [hfind]
    rfl
  have hbuf : (startStream s prompt uid pid).streamBuffer = "" := rfl
  obtain ⟨h1, _⟩ := consume_invariant pid ds (startStream s prompt uid pid)
    (by rw [hfind]; rfl) (by rw [hcontent, hbuf])
  rw [h1, consumeChunks_buffer, hbuf, String.empty_append]

/-- C1 witness: a fresh client consuming the two in-order chunks of the
two-word answer `["ab", "cd"]` ends with placeholder content `"ab cd"`. -/
theorem C1_amended_witness :
    contentOf (consumeChunks "p" (startStream ⟨[], "", false, ""⟩ "q" "u" "p")
      (serverChunks ["ab", "cd"])) "p" = String.join (serverChunks ["ab", "cd"])
      ∧ String.join (serverChunks ["ab", "cd"]) = "ab cd" := by
  refine ⟨C1_amended ⟨[], "", false, ""⟩ "q" "u" "p" (serverChunks ["ab", "cd"])
    (by decide) (by decide), ?_⟩
  rfl

/-- C3, counterexample.  The claim says a second start call on a chatId
with an active stream fails with `StreamAlreadyActive`.  The code's send
handler, with a stream active (`isStreaming`), returns without any effect
and without any error — its result is the unchanged state and its type has
no error case at all — so nothing fails and nothing is queued. -/
theorem C3_counterexample :
    onSend ⟨[], "hello again", true, ""⟩ "u2" "p2"
      = ⟨[], "hello again", true, ""⟩ ∧
    (ClientState.mk [] "hello again" true "").isStreaming = true := by
  constructor
  · decide
  · rfl

/-- C3, amended.  While a stream is active on the chat, a send is silently
ignored: the state is returned unchanged and no `StreamAlreadyActive` (or
any) error exists.  Once the stream has finished (`isStreaming` false), a
send with non-blank input starts a new stream (user message and placeholder
appended, `isStreaming` set, input cleared). -/
theorem C3_amended (s : ClientState) (uid pid : String) :
    (s.isStreaming = true → onSend s uid pid = s) ∧
    (s.isStreaming = false → jsTrim s.input ≠ "" →
      onSend s uid pid
        = { startStream s (jsTrim s.input) uid pid with input := "" }) := by
  constructor
  · intro h
    simp [onSend, h]
  · intro h1 h2
    simp [onSend, h1, h2]

/-- C3 witness: with a stream active the send is a no-op; after it
finishes, the same send starts a stream. -/
theorem C3_amended_witness :
    onSend ⟨[], "hi", true, ""⟩ "u" "p" = ⟨[], "hi", true, ""⟩ ∧
    onSend ⟨[], "hi", false, ""⟩ "u" "p"
      = { startStream ⟨[], "hi", false, ""⟩ (jsTrim "hi") "u" "p" with
          input := "" } :=
  ⟨(C3_amended ⟨[], "hi", true, ""⟩ "u" "p").1 rfl,
   (C3_amended ⟨[], "hi", false, ""⟩ "u" "p").2 rfl (by decide)⟩

/-- After the chat routes' lookup-or-create-then-push of `[u, a]`, the chat
looked up by its id ends with `a` as its last message. -/
theorem findOrCreatePush_find_getLast (db : Db) (cid : String)
    (u a : Message) :
    ((findOrCreatePush db cid cid [u, a]).chats.find?
        (fun c => c.id == cid)).map (fun c => c.messages.getLast?)
      = some (some a) := by
  cases hf : db.chats.find? (fun c => c.id == cid) with
  | some chat =>
    have hmain : findOrCreatePush db cid cid [u, a]
        = { db with
            chats := updateFirst (fun c => c.id == cid) (pushIntoChat [u, a])
              db.chats } := by
      unfold findOrCreatePush
      rw [hf]
    rw [hmain]
    show ((updateFirst _ _ db.chats).find? _).map _ = _
    rw [updateFirst_find?_self (fun c => c.id == cid) (pushIntoChat [u, a])
        db.chats (fun _ => rfl), hf, Option.map_some', Option.map_some']
    show some ((chat.messages ++ [u, a]).getLast?) = _
    rw [show chat.messages ++ [u, a] = (chat.messages ++ [u]) ++ [a] from by
        rw [List.append_assoc]
        rfl,
      List.getLast?_concat]
  | none =>
    have hmain : findOrCreatePush db cid cid [u, a]
        = { db with chats := db.chats ++ [⟨cid, "Untitled Chat", [u, a]⟩] } := by
      unfold findOrCreatePush
      rw [hf]
    rw [hmain]
    show ((db.chats
      ++ [(⟨cid, "Untitled Chat", [u, a]⟩ : ChatSession)]).find? _).map _ = _
    rw [List.find?_append, hf, Option.none_or,
      @List.find?_cons_of_pos _ (fun c : ChatSession => c.id == cid)
        ⟨cid, "Untitled Chat", [u, a]⟩ [] (by simp)]
    rfl

/-- C9, confirmed.  For every stream run to completion, the `done` event's
message content is the concatenation of all streamed chunk deltas followed
by a space and the space-joined citation labels `"[1] [2]"`; it is
strictly longer than the text the subscriber accumulated from the chunk
events, and the very message is persisted as the last message of the
chat. -/
theorem C9_done_content (db : Db) (chatId message primaryDocId : String)
    (words : List String) (uid aid : String) (now now2 : Nat) :
    (streamRun db chatId message primaryDocId words uid aid now
        now2).doneMsg.content
      = String.join (streamRun db chatId message primaryDocId words uid aid
          now now2).deltas ++ " " ++ "[1] [2]" ∧
    (String.join (streamRun db chatId message primaryDocId words uid aid now
        now2).deltas).length
      < (streamRun db chatId message primaryDocId words uid aid now
          now2).doneMsg.content.length ∧
    (((streamRun db chatId message primaryDocId words uid aid now
        now2).db.chats.find? (fun c => c.id == chatId)).map
      (fun c => c.messages.getLast?))
      = some (some (streamRun db chatId message primaryDocId words uid aid
          now now2).doneMsg) := by
  have hc : (streamRun db chatId message primaryDocId words uid aid now
      now2).doneMsg.content = joinSep " " words ++ " " ++ "[1] [2]" := rfl
  have hd : (streamRun db chatId message primaryDocId words uid aid now
      now2).deltas = serverChunks words := rfl
  refine ⟨?_, ?_, ?_⟩
  · rw [hc, hd, join_serverChunks]
  · rw [hc, hd, join_serverChunks, String.length_append,
      String.length_append]
    have h1 : (" " : String).length = 1 := rfl
    have h2 : ("[1] [2]" : String).length = 7 := rfl
    omega
  · exact findOrCreatePush_find_getLast db chatId _ _

/-- Appending a chat with no messages to the chat list changes no counter
reading. -/
theorem viewReactions_append_emptyChat (db : Db) (c : ChatSession)
    (hc : c.messages = []) (cid mid : String) :
    viewReactions { db with chats := db.chats ++ [c] } cid mid
      = viewReactions db cid mid := by
  unfold viewReactions
  have hm : findMsg { db with chats := db.chats ++ [c] } cid mid
      = findMsgIn (db.chats ++ [c]) cid mid := rfl
  rw [hm, findMsgIn_append_one]
  by_cases h : db.chats.find? (fun x => x.id == cid) = none ∧
      (c.id == cid) = true
  · rw [if_pos h, hc]
    have hold : findMsg db cid mid = none := by
      show (db.chats.find? _).bind _ = _
      rw [h.1]
      rfl
    rw [hold]
    rfl
  · rw [if_neg h]
    rfl

/-- C8, confirmed.  Reaction counters are monotonically non-decreasing over
a message's lifetime: no state-mutating operation of the server ever
decreases the `up` or `down` counter any observer can read for any
`(chatId, messageId)`. -/
theorem C8_reactions_monotone (db : Db) (op : ServerOp) (cid mid : String) :
    (viewReactions db cid mid).up
        ≤ (viewReactions (applyOp db op) cid mid).up ∧
      (viewReactions db cid mid).down
        ≤ (viewReactions (applyOp db op) cid mid).down := by
  cases op with
  | reactOp c0 m0 ty =>
    cases hr : react db c0 m0 ty with
    | error e =>
      have happ : applyOp db (.reactOp c0 m0 ty) = db := by
        simp only [applyOp]
        rw [hr]
      rw [happ]
      exact ⟨Nat.le_refl _, Nat.le_refl _⟩
    | ok p =>
      obtain ⟨r, db'⟩ := p
      have happ : applyOp db (.reactOp c0 m0 ty) = db' := by
        simp only [applyOp]
        rw [hr]
      rw [happ]
      obtain ⟨msg, hfind, hr_eq, hdb'⟩ := react_ok_inv hr
      subst hdb'
      rcases findMsg_updateMsgDb db c0 m0 cid mid
          (fun m => { m with reactions := some r }) (fun m => rfl)
        with heq | ⟨m, h1, h2, h3⟩
      · unfold viewReactions
        rw [heq]
        exact ⟨Nat.le_refl _, Nat.le_refl _⟩
      · obtain rfl : msg = m := Option.some.inj (hfind.symm.trans h2)
        unfold viewReactions
        rw [h1, h3, Option.some_bind, Option.some_bind]
        show (msg.reactions.getD ⟨0, 0⟩).up ≤ r.up ∧
          (msg.reactions.getD ⟨0, 0⟩).down ≤ r.down
        rw [hr_eq]
        exact bumpReactions_le _ _
  | commentOp c0 m0 tx fid n =>
    cases hr : comment db c0 m0 tx fid n with
    | error e =>
      have happ : applyOp db (.commentOp c0 m0 tx fid n) = db := by
        simp only [applyOp]
        rw [hr]
      rw [happ]
      exact ⟨Nat.le_refl _, Nat.le_refl _⟩
    | ok p =>
      obtain ⟨cs, db'⟩ := p
      have happ : applyOp db (.commentOp c0 m0 tx fid n) = db' := by
        simp only [applyOp]
        rw [hr]
      rw [happ]
      obtain ⟨msg, hfind, hcs, hdb'⟩ := comment_ok_inv hr
      subst hdb'
      rcases findMsg_updateMsgDb db c0 m0 cid mid
          (fun m => { m with comments := some cs }) (fun m => rfl)
        with heq | ⟨m, h1, h2, h3⟩
      · unfold viewReactions
        rw [heq]
        exact ⟨Nat.le_refl _, Nat.le_refl _⟩
      · unfold viewReactions
        rw [h1, h3, Option.some_bind, Option.some_bind]
        exact ⟨Nat.le_refl _, Nat.le_refl _⟩
  | postChatOp t fid =>
    have happ : applyOp db (.postChatOp t fid)
        = { db with chats := db.chats ++ [(postChat db t fid).1] } := rfl
    rw [happ, viewReactions_append_emptyChat db _ rfl cid mid]
    exact ⟨Nat.le_refl _, Nat.le_refl _⟩
  | chatOp c m p fc u a n n2 =>
    exact viewReactions_push_le db _ _ _
      (by
        intro x hx
        simp only [List.mem_cons, List.not_mem_nil, or_false] at hx
        rcases hx with h | h <;> subst h <;> rfl)
      cid mid
  | streamOp c m p w u a n n2 =>
    exact viewReactions_push_le db _ _ _
      (by
        intro x hx
        simp only [List.mem_cons, List.not_mem_nil, or_false] at hx
        rcases hx with h | h <;> subst h <;> rfl)
      cid mid
  | indexDocOp d =>
    cases hi : indexDoc db d with
    | error e =>
      have happ : applyOp db (.indexDocOp d) = db := by
        simp only [applyOp]
        rw [hi]
      rw [happ]
      exact ⟨Nat.le_refl _, Nat.le_refl _⟩
    | ok p =>
      obtain ⟨x, db'⟩ := p
      have happ : applyOp db (.indexDocOp d) = db' := by
        simp only [applyOp]
        rw [hi]
      have hch : db'.chats = db.chats := by
        unfold indexDoc at hi
        cases hf : db.docs.find? (fun dd => dd.id == d) with
        | none =>
          rw [hf] at hi
          exact Except.noConfusion hi
        | some dd =>
          rw [hf] at hi
          simp only [Except.ok.injEq, Prod.mk.injEq] at hi
          rw [← hi.2]
      have hview : viewReactions db' cid mid = viewReactions db cid mid := by
        unfold viewReactions
        have : findMsg db' cid mid = findMsg db cid mid := by
          show findMsgIn db'.chats cid mid = findMsgIn db.chats cid mid
          rw [hch]
        rw [this]
      rw [happ, hview]
      exact ⟨Nat.le_refl _, Nat.le_refl _⟩

end Rayni
